import Mathlib

/-!
Verification of the rule-evaluation engine in `src/core/evaluate.ts`
(`getNestedValue`, the default operator table, `matchCondition`,
`conditionsMatch`, `evaluate`) together with the legacy flat engine kept in
the repository.  JavaScript runtime values occurring in facts, condition
values and rules are modelled by the inductive type `Value`; numbers are
modelled as integers (no claim under scrutiny depends on float-specific
behaviour), and thrown JavaScript exceptions are modelled by `Except.error`.
Diagnostic output (`console.log` / `console.warn`) is modelled by a list of
`LogEntry` events returned alongside the result; the exact message text is
not part of the contract, only the triggering events.
-/

/-- JSON-like JavaScript runtime values: `undefined`, `null`, booleans,
numbers (modelled as integers), strings, arrays and plain objects. -/
inductive Value where
  | undefined
  | null
  | bool (b : Bool)
  | num (n : Int)
  | str (s : String)
  | arr (elems : List Value)
  | obj (fields : List (String × Value))

/-- JavaScript `typeof` on a modelled value. -/
def jsTypeof : Value → String
  | .undefined => "undefined"
  | .null => "object"
  | .bool _ => "boolean"
  | .num _ => "number"
  | .str _ => "string"
  | .arr _ => "object"
  | .obj _ => "object"

/-- JavaScript strict equality `===`.  Two primitives are strictly equal
when they have the same type and the same content.  Arrays and objects are
compared by reference in JavaScript; values extracted from the facts and
literals written in a rule are distinct heap objects, so `===` on them is
`false`, which is how the last clause models it. -/
def jsStrictEq : Value → Value → Bool
  | .undefined, .undefined => true
  | .null, .null => true
  | .bool a, .bool b => a == b
  | .num a, .num b => a == b
  | .str a, .str b => a == b
  | _, _ => false

mutual

/-- JavaScript `ToString` on a modelled value (`String(v)`): arrays join
their elements with commas, plain objects print as `[object Object]`. -/
def jsToString : Value → String
  | .undefined => "undefined"
  | .null => "null"
  | .bool b => if b then "true" else "false"
  | .num n => toString n
  | .str s => s
  | .arr xs => jsToStringList xs
  | .obj _ => "[object Object]"

/-- Body of `Array.prototype.join(",")`: elements separated by commas,
with `null` and `undefined` elements printed as the empty string. -/
def jsToStringList : List Value → String
  | [] => ""
  | [.null] => ""
  | [.undefined] => ""
  | [v] => jsToString v
  | .null :: rest => "," ++ jsToStringList rest
  | .undefined :: rest => "," ++ jsToStringList rest
  | v :: rest => jsToString v ++ "," ++ jsToStringList rest

end

/-- Splitting a character list at every occurrence of a separator, keeping
empty segments, exactly as JavaScript `String.prototype.split` does for a
one-character separator string (so the empty string yields one empty
segment, and adjacent separators yield empty segments between them). -/
def splitChars (sep : Char) : List Char → List (List Char)
  | [] => [[]]
  | c :: cs =>
    if c = sep then [] :: splitChars sep cs
    else
      match splitChars sep cs with
      | [] => [[c]]
      | g :: gs => (c :: g) :: gs

/-- JavaScript `s.split(sep)` for a one-character separator. -/
def jsSplit (sep : Char) (s : String) : List String :=
  (splitChars sep s.toList).map String.mk

/-- A property key is a canonical array index when it is the decimal
notation of a natural number (JavaScript array element lookup by string
key: `a["2"]` hits an element, `a["02"]` does not). -/
def canonicalIndex (key : String) : Option Nat :=
  match key.toNat? with
  | some i => if toString i = key then some i else none
  | none => none

/-- Property access on a string primitive: `length`, character positions;
every other key yields `undefined` (methods are out of the modelled value
universe and are never reached by the engine). -/
def stringProp (s : String) (key : String) : Value :=
  if key = "length" then .num s.length
  else
    match canonicalIndex key with
    | some i =>
      match s.toList.get? i with
      | some ch => .str (String.mk [ch])
      | none => .undefined
    | none => .undefined

/-- Property access on an array: `length`, canonical element indices;
every other key yields `undefined`. -/
def arrayProp (xs : List Value) (key : String) : Value :=
  if key = "length" then .num xs.length
  else
    match canonicalIndex key with
    | some i => (xs.get? i).getD .undefined
    | none => .undefined

/-- JavaScript property read `prev[key]` on a modelled value.  Reading a
property of `undefined` or `null` throws a `TypeError`, modelled as
`Except.error ()`.  Number and boolean primitives have no own properties
(`(5)["x"]` is `undefined`); strings, arrays and objects resolve the key. -/
def jsIndex : Value → String → Except Unit Value
  | .undefined, _ => Except.error ()
  | .null, _ => Except.error ()
  | .bool _, _ => Except.ok .undefined
  | .num _, _ => Except.ok .undefined
  | .str s, key => Except.ok (stringProp s key)
  | .arr xs, key => Except.ok (arrayProp xs key)
  | .obj fields, key => Except.ok ((fields.lookup key).getD .undefined)

/-- Body of the `reduce` in `getNestedValue`: for each key in turn,
`(prev, key) => (prev !== undefined ? prev[key] : undefined)`.  A `prev`
that is `undefined` short-circuits the step; any other value is indexed,
which throws when `prev` is `null`. -/
def resolveKeys : List String → Value → Except Unit Value
  | [], prev => Except.ok prev
  | key :: rest, prev =>
    match prev with
    | .undefined => resolveKeys rest .undefined
    | _ =>
      match jsIndex prev key with
      | Except.error e => Except.error e
      | Except.ok next => resolveKeys rest next

/-- Embedding of `getNestedValue(obj, path)` from `src/core/evaluate.ts`:
splits `path` on `.` and reduces over the keys. -/
def getNestedValue (obj : Value) (path : String) : Except Unit Value :=
  resolveKeys (jsSplit '.' path) obj

/-- Whether the first character list is a prefix of the second. -/
def startsWithChars : List Char → List Char → Bool
  | [], _ => true
  | _ :: _, [] => false
  | n :: ns, h :: hs => n == h && startsWithChars ns hs

/-- Whether the first character list occurs contiguously inside the
second (JavaScript `String.prototype.includes`). -/
def containsChars (needle : List Char) : List Char → Bool
  | [] => needle.isEmpty
  | h :: hs => startsWithChars needle (h :: hs) || containsChars needle hs

/-- JavaScript `s.startsWith(pre)`. -/
def jsStartsWith (s pre : String) : Bool :=
  startsWithChars pre.toList s.toList

/-- JavaScript `s.endsWith(suf)`: a suffix is a prefix of the reversal. -/
def jsEndsWith (s suf : String) : Bool :=
  startsWithChars suf.toList.reverse s.toList.reverse

/-- JavaScript `s.includes(t)`. -/
def jsIncludes (s t : String) : Bool :=
  containsChars t.toList s.toList

/-- Signature of a comparison function: fact value and condition value to a
boolean.  The codomain is wrapped in `Except` because a comparison function
may throw in JavaScript (caller-supplied custom operators, and the legacy
operator table modelled further below, do); each default comparison of the
core engine provably never does. -/
def OperatorFunction := Value → Value → Except Unit Bool

/-- Embedding of the `equals` default: `fact === cond`. -/
def equalsFn : OperatorFunction := fun fact cond => Except.ok (jsStrictEq fact cond)

/-- Embedding of the `notEquals` default: `fact !== cond`. -/
def notEqualsFn : OperatorFunction := fun fact cond => Except.ok (!jsStrictEq fact cond)

/-- Embedding of the `greaterThan` default:
`typeof fact === 'number' && typeof cond === 'number' && fact > cond`. -/
def greaterThanFn : OperatorFunction := fun fact cond =>
  Except.ok
    (match fact, cond with
     | .num a, .num b => decide (a > b)
     | _, _ => false)

/-- Embedding of the `lessThan` default:
`typeof fact === 'number' && typeof cond === 'number' && fact < cond`. -/
def lessThanFn : OperatorFunction := fun fact cond =>
  Except.ok
    (match fact, cond with
     | .num a, .num b => decide (a < b)
     | _, _ => false)

/-- Embedding of the `contains` default: substring containment when the
fact value is a string (`fact.includes(cond)` coerces `cond` with
`ToString`), element membership (`===`-style, SameValueZero) when the fact
value is an array, `false` otherwise. -/
def containsFn : OperatorFunction := fun fact cond =>
  Except.ok
    (match fact with
     | .str s => jsIncludes s (jsToString cond)
     | .arr xs => xs.any (fun x => jsStrictEq x cond)
     | _ => false)

/-- Embedding of the `startsWith` default:
`typeof fact === 'string' && fact.startsWith(cond)`; note the fact value's
type is checked but the condition value is coerced with `ToString`. -/
def startsWithFn : OperatorFunction := fun fact cond =>
  Except.ok
    (match fact with
     | .str s => jsStartsWith s (jsToString cond)
     | _ => false)

/-- Embedding of the `endsWith` default:
`typeof fact === 'string' && fact.endsWith(cond)`. -/
def endsWithFn : OperatorFunction := fun fact cond =>
  Except.ok
    (match fact with
     | .str s => jsEndsWith s (jsToString cond)
     | _ => false)

/-- Embedding of the `in` default:
`Array.isArray(cond) && cond.includes(fact)`. -/
def inFn : OperatorFunction := fun fact cond =>
  Except.ok
    (match cond with
     | .arr xs => xs.any (fun x => jsStrictEq x fact)
     | _ => false)

/-- Embedding of `defaultOperatorFunctions` from `src/core/evaluate.ts`,
as an association list standing for the record; lookup of a name not in the
table yields `none` (in JavaScript: `undefined`). -/
def defaultOperatorFunctions : List (String × OperatorFunction) :=
  [("equals", equalsFn),
   ("notEquals", notEqualsFn),
   ("greaterThan", greaterThanFn),
   ("lessThan", lessThanFn),
   ("contains", containsFn),
   ("startsWith", startsWithFn),
   ("endsWith", endsWithFn),
   ("in", inFn)]

/-- Embedding of `EngineOptions`: both fields are optional in the source. -/
structure EngineOptions where
  debug : Option Bool
  customOperators : Option (List (String × OperatorFunction))

/-- Embedding of `getOperators`: `{...defaultOperatorFunctions,
...options.customOperators}` when custom operators are supplied, the
defaults alone otherwise.  In the association-list model the spread where
custom entries win is lookup-in-custom-first. -/
def getOperators (options : Option EngineOptions) : List (String × OperatorFunction) :=
  match options.bind (fun o => o.customOperators) with
  | some custom => custom ++ defaultOperatorFunctions
  | none => defaultOperatorFunctions

/-- A rule condition: either a simple condition `{field, operator, value}`
or a condition group `{operator: 'all' | 'any', conditions: [...]}`.  The
source discriminates the two by duck-typing (a group has both an
`operator` and a `conditions` property, a simple condition never has a
`conditions` property), which on well-formed inputs is exactly this tagged
union.  Operator names are strings so that unknown operator names and
unknown group combinators remain expressible. -/
inductive RuleCondition where
  | cond (field : String) (operator : String) (value : Value)
  | group (operator : String) (conditions : List RuleCondition)

/-- Diagnostic events emitted on the console in debug mode.  The message
wording is not part of the contract, so each `console.log`/`console.warn`
call site is modelled by one constructor carrying the data it prints. -/
inductive LogEntry where
  | evaluatingRule (action : String)
  | matchedRule (action : String)
  | noRuleMatched
  | unknownGroupOperator (operator : String)
  | unknownOperator (operator : String)
  | conditionTrace (field : String) (operator : String) (factValue : Value)
      (condValue : Value) (result : Bool)
  | missingField (path : String)
  | unsupportedOperator (operator : String)
  | operatorError (field : String)
  | ruleMatchedAt (index : Nat)

mutual

/-- Embedding of `matchCondition` from `src/core/evaluate.ts`.  A group
dispatches on its combinator (`every` for `all`, `some` for `any`, `false`
with a warning otherwise).  A simple condition first resolves the fact
value (which can throw, see `jsIndex`), then looks the operator up in the
registry — an unregistered name yields `false` with a warning — and finally
applies the operator function. -/
def matchCondition (facts : Value) (operators : List (String × OperatorFunction))
    (debug : Bool) : RuleCondition → Except Unit Bool × List LogEntry
  | .group op cs =>
    if op = "all" then matchAll facts operators debug cs
    else if op = "any" then matchAny facts operators debug cs
    else (Except.ok false, if debug then [.unknownGroupOperator op] else [])
  | .cond field opName value =>
    match getNestedValue facts field with
    | Except.error e => (Except.error e, [])
    | Except.ok factValue =>
      match operators.lookup opName with
      | none => (Except.ok false, if debug then [.unknownOperator opName] else [])
      | some fn =>
        match fn factValue value with
        | Except.error e => (Except.error e, [])
        | Except.ok result =>
          (Except.ok result,
           if debug then [.conditionTrace field opName factValue value result] else [])

/-- Embedding of `group.conditions.every((c) => matchCondition(...))`:
children in order, stopping at the first `false` (or thrown) child. -/
def matchAll (facts : Value) (operators : List (String × OperatorFunction))
    (debug : Bool) : List RuleCondition → Except Unit Bool × List LogEntry
  | [] => (Except.ok true, [])
  | c :: rest =>
    match matchCondition facts operators debug c with
    | (Except.ok true, l) =>
      let r := matchAll facts operators debug rest
      (r.1, l ++ r.2)
    | (Except.ok false, l) => (Except.ok false, l)
    | (Except.error e, l) => (Except.error e, l)

/-- Embedding of `group.conditions.some((c) => matchCondition(...))`:
children in order, stopping at the first `true` (or thrown) child. -/
def matchAny (facts : Value) (operators : List (String × OperatorFunction))
    (debug : Bool) : List RuleCondition → Except Unit Bool × List LogEntry
  | [] => (Except.ok false, [])
  | c :: rest =>
    match matchCondition facts operators debug c with
    | (Except.ok false, l) =>
      let r := matchAny facts operators debug rest
      (r.1, l ++ r.2)
    | (Except.ok true, l) => (Except.ok true, l)
    | (Except.error e, l) => (Except.error e, l)

end

/-- Embedding of a `Rule` from `src/core/types.ts`: `conditions` is either
one `RuleCondition` (`Sum.inl`) or an array of them (`Sum.inr`), plus an
`action` string.  The type has no further fields; in particular it has no
`combination` field. -/
structure Rule where
  conditions : Sum RuleCondition (List RuleCondition)
  action : String

/-- Embedding of `conditionsMatch` from `src/core/evaluate.ts`: an array of
conditions is combined with `every` (implicit `all`), a single condition or
group is matched directly. -/
def conditionsMatch (conditions : Sum RuleCondition (List RuleCondition)) (facts : Value)
    (operators : List (String × OperatorFunction)) (debug : Bool) :
    Except Unit Bool × List LogEntry :=
  match conditions with
  | .inr cs => matchAll facts operators debug cs
  | .inl c => matchCondition facts operators debug c

/-- The rule loop of `evaluate`: for each rule in order, log the attempt in
debug mode, test its conditions, and return its action on the first match;
after the last rule, return the no-match sentinel `none` (JavaScript
`null`). -/
def evalRules (facts : Value) (operators : List (String × OperatorFunction))
    (debug : Bool) : List Rule → Except Unit (Option String) × List LogEntry
  | [] => (Except.ok none, if debug then [.noRuleMatched] else [])
  | r :: rest =>
    let l0 : List LogEntry := if debug then [.evaluatingRule r.action] else []
    match conditionsMatch r.conditions facts operators debug with
    | (Except.ok false, l) =>
      let res := evalRules facts operators debug rest
      (res.1, l0 ++ l ++ res.2)
    | (Except.ok true, l) =>
      (Except.ok (some r.action), l0 ++ l ++ (if debug then [.matchedRule r.action] else []))
    | (Except.error e, l) => (Except.error e, l0 ++ l)

/-- Embedding of `evaluate` from `src/core/evaluate.ts`: reads
`options?.debug ?? false`, resolves the operator registry, and scans the
rules in order. -/
def evaluate (rules : List Rule) (facts : Value) (options : Option EngineOptions) :
    Except Unit (Option String) × List LogEntry :=
  let debug := (options.bind (fun o => o.debug)).getD false
  let operators := getOperators options
  evalRules facts operators debug rules

/-- Traversal mirror of `resolveKeys` recording whether the reduction in
`getNestedValue` ever reads a property of `null`, i.e. whether the
JavaScript original throws a `TypeError` on this input. -/
def pathHitsNull : List String → Value → Bool
  | [], _ => false
  | _ :: rest, .undefined => pathHitsNull rest .undefined
  | _ :: _, .null => true
  | key :: rest, prev =>
    match jsIndex prev key with
    | Except.ok next => pathHitsNull rest next
    | Except.error _ => true

/-! The legacy flat engine kept in the repository (the unnamed source file
importing `dot-prop`): throwing operator table, per-rule `combination`
field, flat condition lists.  It is embedded separately so that statements
about the `combination` field can be settled against the variant that
implements it. -/

/-- A condition of the legacy engine: `{field, operator, value}`. -/
structure LegacyCondition where
  field : String
  operator : String
  value : Value

/-- A rule of the legacy engine: a flat array of conditions, an action, and
an optional `combination` (`'all'` or `'any'`, defaulting to `'all'`). -/
structure LegacyRule where
  conditions : List LegacyCondition
  action : String
  combination : Option String

/-- Legacy `greaterThan`: throws unless both operands are numbers. -/
def legacyGreaterThanFn : OperatorFunction := fun fact cond =>
  match fact, cond with
  | .num a, .num b => Except.ok (decide (a > b))
  | _, _ => Except.error ()

/-- Legacy `lessThan`: throws unless both operands are numbers. -/
def legacyLessThanFn : OperatorFunction := fun fact cond =>
  match fact, cond with
  | .num a, .num b => Except.ok (decide (a < b))
  | _, _ => Except.error ()

/-- Legacy `contains`: string/string containment, array-fact membership,
anything else throws. -/
def legacyContainsFn : OperatorFunction := fun fact cond =>
  match fact, cond with
  | .str s, .str t => Except.ok (jsIncludes s t)
  | .arr xs, _ => Except.ok (xs.any (fun x => jsStrictEq x cond))
  | _, _ => Except.error ()

/-- Legacy `startsWith`: throws unless both operands are strings. -/
def legacyStartsWithFn : OperatorFunction := fun fact cond =>
  match fact, cond with
  | .str s, .str t => Except.ok (jsStartsWith s t)
  | _, _ => Except.error ()

/-- Legacy `endsWith`: throws unless both operands are strings. -/
def legacyEndsWithFn : OperatorFunction := fun fact cond =>
  match fact, cond with
  | .str s, .str t => Except.ok (jsEndsWith s t)
  | _, _ => Except.error ()

/-- Legacy `in`: throws unless the condition value is an array. -/
def legacyInFn : OperatorFunction := fun fact cond =>
  match cond with
  | .arr xs => Except.ok (xs.any (fun x => jsStrictEq x fact))
  | _ => Except.error ()

/-- The legacy operator table: `equals`/`notEquals` as in the core engine,
the six other built-ins throwing on type mismatch. -/
def legacyOperatorFunctions : List (String × OperatorFunction) :=
  [("equals", equalsFn),
   ("notEquals", notEqualsFn),
   ("greaterThan", legacyGreaterThanFn),
   ("lessThan", legacyLessThanFn),
   ("contains", legacyContainsFn),
   ("startsWith", legacyStartsWithFn),
   ("endsWith", legacyEndsWithFn),
   ("in", legacyInFn)]

/-- Modelled from the documented contract of the external `dot-prop`
dependency (`getProperty`): traverses the dot-separated path through
objects and arrays and yields `undefined` as soon as the current value is
not indexable (including `null`), without throwing. -/
def legacyGetProperty : List String → Value → Value
  | [], v => v
  | k :: rest, .obj fields => legacyGetProperty rest ((fields.lookup k).getD .undefined)
  | k :: rest, .arr xs => legacyGetProperty rest (arrayProp xs k)
  | _ :: _, _ => .undefined

/-- Legacy `getNestedValue`: `getProperty` plus an unconditional console
warning when the path is missing. -/
def legacyGetNestedValue (obj : Value) (path : String) : Value × List LogEntry :=
  match legacyGetProperty (jsSplit '.' path) obj with
  | .undefined => (.undefined, [.missingField path])
  | v => (v, [])

/-- Legacy `decide`: resolve the fact value, look the operator up (an
unsupported name logs and yields `false`), apply it, and convert a thrown
operator fault into `false` with an error log — the recovery wrapper the
design notes describe. -/
def legacyDecideCondition (condition : LegacyCondition) (facts : Value) :
    Bool × List LogEntry :=
  let resolved := legacyGetNestedValue facts condition.field
  match legacyOperatorFunctions.lookup condition.operator with
  | none => (false, resolved.2 ++ [.unsupportedOperator condition.operator])
  | some fn =>
    match fn resolved.1 condition.value with
    | Except.ok b => (b, resolved.2)
    | Except.error _ => (false, resolved.2 ++ [.operatorError condition.field])

/-- Legacy `conditions.every((c) => decide(c, facts))`. -/
def legacyDecideAll (facts : Value) : List LegacyCondition → Bool × List LogEntry
  | [] => (true, [])
  | c :: rest =>
    match legacyDecideCondition c facts with
    | (true, l) =>
      let r := legacyDecideAll facts rest
      (r.1, l ++ r.2)
    | (false, l) => (false, l)

/-- Legacy `conditions.some((c) => decide(c, facts))`. -/
def legacyDecideAny (facts : Value) : List LegacyCondition → Bool × List LogEntry
  | [] => (false, [])
  | c :: rest =>
    match legacyDecideCondition c facts with
    | (false, l) =>
      let r := legacyDecideAny facts rest
      (r.1, l ++ r.2)
    | (true, l) => (true, l)

/-- Legacy `conditionsMatch`: `every` under `'all'`, `some` under any other
combination value (the source compares against `'all'` only). -/
def legacyConditionsMatch (conditions : List LegacyCondition) (facts : Value)
    (combination : String) : Bool × List LogEntry :=
  if combination = "all" then legacyDecideAll facts conditions
  else legacyDecideAny facts conditions

/-- The indexed rule loop of the legacy `evaluate`; `rule.combination ??
'all'` picks the combination mode of each rule. -/
def legacyEvalRules (facts : Value) (debug : Bool) :
    Nat → List LegacyRule → Option String × List LogEntry
  | _, [] => (none, if debug then [.noRuleMatched] else [])
  | i, r :: rest =>
    match legacyConditionsMatch r.conditions facts (r.combination.getD "all") with
    | (true, l) => (some r.action, l ++ (if debug then [.ruleMatchedAt i] else []))
    | (false, l) =>
      let res := legacyEvalRules facts debug (i + 1) rest
      (res.1, l ++ res.2)

/-- Legacy `evaluate`: first matching rule's action, `null` otherwise. -/
def legacyEvaluate (rules : List LegacyRule) (facts : Value) (debug : Bool) :
    Option String × List LogEntry :=
  legacyEvalRules facts debug 0 rules

example :
    evaluate
      [⟨.inr [.cond "user.name" "equals" (.str "alice"),
              .cond "user.age" "greaterThan" (.num 18)], "allowEntry"⟩]
      (.obj [("user", .obj [("name", .str "alice"), ("age", .num 25)])]) none
      = (.ok (some "allowEntry"), []) := rfl

example :
    evaluate
      [⟨.inr [.cond "user.name" "equals" (.str "alice"),
              .cond "user.age" "greaterThan" (.num 18)], "allowEntry"⟩]
      (.obj [("user", .obj [("name", .str "alice"), ("age", .num 16)])]) none
      = (.ok none, []) := rfl

example :
    evaluate
      [⟨.inr [.cond "user.role" "in" (.arr [.str "admin", .str "editor"])], "ok"⟩]
      (.obj [("user", .obj [("role", .str "editor")])]) none
      = (.ok (some "ok"), []) := rfl

/-! Helper lemmas shared by the claim theorems. -/

theorem startsWithChars_iff (ns : List Char) : ∀ hs,
    startsWithChars ns hs = true ↔ ns <+: hs := by
  induction ns with
  | nil => intro hs; simp [startsWithChars]
  | cons n ns ih =>
    intro hs
    cases hs with
    | nil => simp [startsWithChars]
    | cons h hs => simp [startsWithChars, List.cons_prefix_cons, ih]

theorem resolveKeys_error_iff (ks : List String) : ∀ v : Value,
    resolveKeys ks v = Except.error () ↔ pathHitsNull ks v = true := by
  induction ks with
  | nil => intro v; simp [resolveKeys, pathHitsNull]
  | cons k rest ih =>
    intro v
    cases v with
    | undefined => simpa [resolveKeys, pathHitsNull] using ih Value.undefined
    | null => simp [resolveKeys, pathHitsNull, jsIndex]
    | bool b => simpa [resolveKeys, pathHitsNull, jsIndex] using ih Value.undefined
    | num n => simpa [resolveKeys, pathHitsNull, jsIndex] using ih Value.undefined
    | str s => simpa [resolveKeys, pathHitsNull, jsIndex] using ih (stringProp s k)
    | arr xs => simpa [resolveKeys, pathHitsNull, jsIndex] using ih (arrayProp xs k)
    | obj fields => simpa [resolveKeys, pathHitsNull, jsIndex] using ih ((fields.lookup k).getD Value.undefined)

/-- Claim C2, counterexample: resolving the path `user.country` against the
facts `{user: null}` reads a property of `null` and throws a `TypeError`
(`Except.error`), contradicting the claim that the resolver never raises
and treats a null intermediate as absent. -/
theorem c2_counterexample_null_intermediate_throws :
    getNestedValue (.obj [("user", .null)]) "user.country" = Except.error () := rfl

/-- Claim C2, amended: for every fact store and dot-separated path,
`getNestedValue` either returns a value (the resolved value or the absent
sentinel `undefined`) or raises, and it raises exactly when the traversal
reads a property of a `null` intermediate — an `undefined` (absent)
intermediate or a non-indexable primitive propagates `undefined` without
an exception. -/
theorem c2_amended_resolver_error_characterization :
    (∀ (obj : Value) (path : String),
        getNestedValue obj path = Except.error () ↔ pathHitsNull (jsSplit '.' path) obj = true)
    ∧ (∀ (obj : Value) (path : String),
        getNestedValue obj path = Except.error () ∨ ∃ v, getNestedValue obj path = Except.ok v) := by
  constructor
  · intro obj path
    exact resolveKeys_error_iff (jsSplit '.' path) obj
  · intro obj path
    cases h : getNestedValue obj path with
    | error e => cases e; exact Or.inl rfl
    | ok v => exact Or.inr ⟨v, rfl⟩

/-- Claim C8, counterexample: the built-in `startsWith` returns `true` for
the non-textual condition value `5` against the fact value `"5x"` (the
source checks only the fact value's type and `String.prototype.startsWith`
coerces its argument), contradicting "true only if both operands are
textual". -/
theorem c8_counterexample_numeric_condition_coerced :
    startsWithFn (.str "5x") (.num 5) = Except.ok true := rfl

/-- Claim C8, amended: `startsWith` returns `true` exactly when the fact
value is textual and is prefixed by the string coercion of the condition
value, and `endsWith` returns `true` exactly when the fact value is textual
and is suffixed by the string coercion of the condition value; in
particular a non-textual fact value yields `false`, but a non-textual
condition value is coerced, not rejected. -/
theorem c8_amended_startsWith_endsWith_characterization :
    (∀ (f c : Value), startsWithFn f c = Except.ok true ↔
        ∃ s, f = Value.str s ∧ (jsToString c).toList <+: s.toList)
    ∧ (∀ (f c : Value), endsWithFn f c = Except.ok true ↔
        ∃ s, f = Value.str s ∧ (jsToString c).toList <:+ s.toList) := by
  constructor
  · intro f c
    cases f <;> simp [startsWithFn, jsStartsWith, startsWithChars_iff]
  · intro f c
    cases f <;> simp [endsWithFn, jsEndsWith, startsWithChars_iff, List.reverse_prefix]

/-- Claim C9: a rule whose conditions is the empty sequence matches
vacuously (its action is returned as soon as it is reached), an `all`
group with no children matches, and an `any` group with no children does
not match. -/
theorem c9_empty_conditions (facts : Value) (operators : List (String × OperatorFunction))
    (debug : Bool) (action : String) (rest : List Rule) (options : Option EngineOptions) :
    conditionsMatch (Sum.inr []) facts operators debug = (Except.ok true, [])
    ∧ matchCondition facts operators debug (.group "all" []) = (Except.ok true, [])
    ∧ matchCondition facts operators debug (.group "any" []) = (Except.ok false, [])
    ∧ (evaluate ((⟨Sum.inr [], action⟩ : Rule) :: rest) facts options).1
        = Except.ok (some action) := by
  refine ⟨rfl, ?_, ?_, ?_⟩
  · simp [matchCondition, matchAll]
  · simp [matchCondition, matchAny]
  · simp [evaluate, evalRules, conditionsMatch, matchAll]

/-- Claim C1, counterexample: the core engine's `Rule` has no `combination`
field, and `conditionsMatch` combines a bare sequence of conditions with
`every` unconditionally; on the claimed scenario (conditions
`user.country equals "norway"` / `user.country equals "sweden"`, facts
`{user: {country: "sweden"}}`) the core `evaluate` therefore returns the
no-match sentinel instead of the rule's action. -/
theorem c1_counterexample_combination_ignored :
    evaluate
      [⟨Sum.inr [.cond "user.country" "equals" (.str "norway"),
                 .cond "user.country" "equals" (.str "sweden")], "allowEntry"⟩]
      (.obj [("user", .obj [("country", .str "sweden")])]) none
      = (Except.ok none, []) := rfl

/-- Claim C1, amended: in the core engine a bare sequence of conditions is
always combined as an implicit `all` group — any `combination` field is
ignored because `Rule` has none — so the claimed scenario yields the
no-match sentinel there; the legacy flat engine kept in the repository is
the variant that implements the claimed behaviour: its per-rule
`combination` (default `"all"`) selects the combination mode, and under it
the scenario rule with `combination: "any"` matches the facts
`{user: {country: "sweden"}}` and its action is returned, while the same
rule without a `combination` field (default `"all"`) does not match. -/
theorem c1_amended_bare_sequence_is_all :
    (∀ (cs : List RuleCondition) (facts : Value)
        (operators : List (String × OperatorFunction)) (debug : Bool),
        conditionsMatch (Sum.inr cs) facts operators debug
          = matchCondition facts operators debug (.group "all" cs))
    ∧ legacyEvaluate
        [⟨[⟨"user.country", "equals", .str "norway"⟩,
           ⟨"user.country", "equals", .str "sweden"⟩], "allowEntry", some "any"⟩]
        (.obj [("user", .obj [("country", .str "sweden")])]) false
        = (some "allowEntry", [])
    ∧ legacyEvaluate
        [⟨[⟨"user.country", "equals", .str "norway"⟩,
           ⟨"user.country", "equals", .str "sweden"⟩], "allowEntry", none⟩]
        (.obj [("user", .obj [("country", .str "sweden")])]) false
        = (none, []) := by
  refine ⟨fun cs facts operators debug => ?_, rfl, rfl⟩
  simp [conditionsMatch, matchCondition]

/-- Claim C4, counterexample: `evaluate` propagates the `TypeError` thrown
by `getNestedValue` when a condition's path traverses a `null`
intermediate, contradicting "never an exception". -/
theorem c4_counterexample_evaluate_throws :
    evaluate [⟨Sum.inr [.cond "user.country" "equals" (.str "x")], "act"⟩]
      (.obj [("user", .null)]) none
      = (Except.error (), []) := rfl

theorem evalRules_result_shape (facts : Value) (operators : List (String × OperatorFunction))
    (debug : Bool) : ∀ rules : List Rule,
    (evalRules facts operators debug rules).1 = Except.error ()
    ∨ (evalRules facts operators debug rules).1 = Except.ok none
    ∨ ∃ r ∈ rules, (evalRules facts operators debug rules).1 = Except.ok (some r.action) := by
  intro rules
  induction rules with
  | nil => exact Or.inr (Or.inl (by simp [evalRules]))
  | cons r rest ih =>
    rcases h : conditionsMatch r.conditions facts operators debug with ⟨res, l⟩
    rcases res with e | b
    · cases e
      exact Or.inl (by simp [evalRules, h])
    · cases b with
      | false =>
        have hstep : (evalRules facts operators debug (r :: rest)).1
            = (evalRules facts operators debug rest).1 := by
          simp [evalRules, h]
        rw [hstep]
        rcases ih with h1 | h2 | ⟨r', hr', h3⟩
        · exact Or.inl h1
        · exact Or.inr (Or.inl h2)
        · exact Or.inr (Or.inr ⟨r', List.mem_cons_of_mem _ hr', h3⟩)
      | true =>
        refine Or.inr (Or.inr ⟨r, List.mem_cons_self r rest, ?_⟩)
        simp [evalRules, h]

/-- Claim C4, amended: `evaluate` returns either the action of one of the
supplied rules or the no-match sentinel — never a value not traceable to
the input — and the empty rule sequence always yields the sentinel; it is,
however, not exception-free: a `TypeError` thrown while resolving a
condition path through a `null` intermediate propagates to the caller. -/
theorem c4_amended_result_shape :
    (∀ (facts : Value) (options : Option EngineOptions),
        (evaluate ([] : List Rule) facts options).1 = Except.ok none)
    ∧ (∀ (rules : List Rule) (facts : Value) (options : Option EngineOptions),
        (evaluate rules facts options).1 = Except.error ()
        ∨ (evaluate rules facts options).1 = Except.ok none
        ∨ ∃ r ∈ rules, (evaluate rules facts options).1 = Except.ok (some r.action)) := by
  constructor
  · intro facts options
    rfl
  · intro rules facts options
    exact evalRules_result_shape facts (getOperators options)
      ((options.bind (fun o => o.debug)).getD false) rules

/-- Claim C3: first-match priority — when every rule before `r` fails its
conditions and `r` matches, `evaluate` returns `r`'s action regardless of
the rules after `r` (they are never evaluated). -/
theorem c3_evaluate_first_match (pre : List Rule) (r : Rule) (post : List Rule)
    (facts : Value) (options : Option EngineOptions)
    (hpre : ∀ r' ∈ pre, (conditionsMatch r'.conditions facts (getOperators options)
        ((options.bind (fun o => o.debug)).getD false)).1 = Except.ok false)
    (hr : (conditionsMatch r.conditions facts (getOperators options)
        ((options.bind (fun o => o.debug)).getD false)).1 = Except.ok true) :
    (evaluate (pre ++ r :: post) facts options).1 = Except.ok (some r.action) := by
  show (evalRules facts (getOperators options)
      ((options.bind (fun o => o.debug)).getD false) (pre ++ r :: post)).1
      = Except.ok (some r.action)
  induction pre with
  | nil =>
    rcases h : conditionsMatch r.conditions facts (getOperators options)
        ((options.bind (fun o => o.debug)).getD false) with ⟨res, l⟩
    rw [h] at hr
    simp only at hr
    subst hr
    simp [evalRules, h]
  | cons r' rest ih =>
    rcases h' : conditionsMatch r'.conditions facts (getOperators options)
        ((options.bind (fun o => o.debug)).getD false) with ⟨res, l⟩
    have hfalse := hpre r' (List.mem_cons_self r' rest)
    rw [h'] at hfalse
    simp only at hfalse
    subst hfalse
    have hstep : (evalRules facts (getOperators options)
        ((options.bind (fun o => o.debug)).getD false) (r' :: (rest ++ r :: post))).1
        = (evalRules facts (getOperators options)
        ((options.bind (fun o => o.debug)).getD false) (rest ++ r :: post)).1 := by
      simp [evalRules, h']
    rw [List.cons_append, hstep]
    exact ih (fun r'' h'' => hpre r'' (List.mem_cons_of_mem _ h''))

/-- Claim C3, witness: a concrete three-rule sequence where the second and
third rules both match; the second rule's action is returned. -/
theorem c3_evaluate_first_match_witness :
    (evaluate ([⟨Sum.inr [.cond "user.name" "equals" (.str "bob")], "firstRule"⟩]
        ++ ⟨Sum.inr [.cond "user.age" "greaterThan" (.num 25)], "secondRule"⟩
        :: [⟨Sum.inr [], "thirdRule"⟩])
      (.obj [("user", .obj [("name", .str "alice"), ("age", .num 30)])]) none).1
      = Except.ok (some "secondRule") := by
  refine c3_evaluate_first_match _ _ _ _ _ ?_ rfl
  intro r' h'
  simp only [List.mem_singleton] at h'
  subst h'
  rfl

theorem jsStrictEq_undefined_iff (x : Value) :
    jsStrictEq x Value.undefined = true ↔ x = Value.undefined := by
  cases x <;> simp [jsStrictEq]

/-- Claim C5, counterexample: a condition on an absent field with the
built-in `notEquals` operator evaluates to `true` — an absent field
produces a matching condition, not a non-matching one as claimed
(`undefined !== "x"`). -/
theorem c5_counterexample_notEquals_absent_matches :
    (matchCondition (.obj []) defaultOperatorFunctions false
      (.cond "user.name" "notEquals" (.str "x"))).1 = Except.ok true := rfl

/-- Claim C5, amended: every function in the built-in operator table is
total — it returns a boolean and never throws; `greaterThan`/`lessThan`
yield `false` whenever either operand is non-numeric; and an absent
(`undefined`) fact value yields a non-matching condition for
`greaterThan`, `lessThan`, `contains`, `startsWith` and `endsWith`, while
`equals` matches it exactly when the condition value is itself
`undefined`, `notEquals` matches it exactly when the condition value is
not `undefined`, and `in` matches it exactly when the condition value is
an array with an `undefined` element. -/
theorem c5_amended_operator_totality :
    (∀ (name : String) (fn : OperatorFunction), (name, fn) ∈ defaultOperatorFunctions →
        ∀ f c, ∃ b, fn f c = Except.ok b)
    ∧ (∀ f c, jsTypeof f ≠ "number" ∨ jsTypeof c ≠ "number" →
        greaterThanFn f c = Except.ok false ∧ lessThanFn f c = Except.ok false)
    ∧ (∀ c, equalsFn Value.undefined c = Except.ok true ↔ c = Value.undefined)
    ∧ (∀ c, notEqualsFn Value.undefined c = Except.ok true ↔ c ≠ Value.undefined)
    ∧ (∀ c, inFn Value.undefined c = Except.ok true ↔ ∃ l, c = Value.arr l ∧ Value.undefined ∈ l)
    ∧ (∀ c, greaterThanFn Value.undefined c = Except.ok false
        ∧ lessThanFn Value.undefined c = Except.ok false
        ∧ containsFn Value.undefined c = Except.ok false
        ∧ startsWithFn Value.undefined c = Except.ok false
        ∧ endsWithFn Value.undefined c = Except.ok false) := by
  refine ⟨?_, ?_, ?_, ?_, ?_, ?_⟩
  · suffices hsuf : ∀ p ∈ defaultOperatorFunctions, ∀ f c, ∃ b, p.2 f c = Except.ok b by
      intro name fn h f c
      exact hsuf (name, fn) h f c
    simp only [defaultOperatorFunctions, List.forall_mem_cons, List.forall_mem_nil, and_true]
    refine ⟨?_, ?_, ?_, ?_, ?_, ?_, ?_, ?_, fun x hx => absurd hx (List.not_mem_nil x)⟩ <;>
      exact fun a b => ⟨_, rfl⟩
  · intro f c h
    cases f <;> cases c <;> simp_all [greaterThanFn, lessThanFn, jsTypeof]
  · intro c
    cases c <;> simp [equalsFn, jsStrictEq]
  · intro c
    cases c <;> simp [notEqualsFn, jsStrictEq]
  · intro c
    cases c <;> simp [inFn, List.any_eq_true, jsStrictEq_undefined_iff]
  · intro c
    exact ⟨rfl, rfl, rfl, rfl, rfl⟩

/-- Claim C5, amended, witness: `greaterThan` and `lessThan` on the
non-numeric fact value `"150"` are `false` rather than a fault. -/
theorem c5_amended_witness :
    greaterThanFn (Value.str "150") (Value.num 100) = Except.ok false
    ∧ lessThanFn (Value.str "150") (Value.num 100) = Except.ok false :=
  c5_amended_operator_totality.2.1 (Value.str "150") (Value.num 100)
    (Or.inl (by decide))

theorem matchAll_ok_true_iff (facts : Value) (operators : List (String × OperatorFunction))
    (debug : Bool) : ∀ cs : List RuleCondition,
    (matchAll facts operators debug cs).1 = Except.ok true ↔
      ∀ c ∈ cs, (matchCondition facts operators debug c).1 = Except.ok true := by
  intro cs
  induction cs with
  | nil => simp [matchAll]
  | cons c rest ih =>
    rcases h : matchCondition facts operators debug c with ⟨res, l⟩
    rcases res with e | b
    · cases e
      simp [matchAll, h, List.forall_mem_cons]
    · cases b
      · simp [matchAll, h, List.forall_mem_cons]
      · simp [matchAll, h, List.forall_mem_cons, ih]

theorem matchAny_ok_true_iff (facts : Value) (operators : List (String × OperatorFunction))
    (debug : Bool) : ∀ cs : List RuleCondition,
    (∀ c ∈ cs, (matchCondition facts operators debug c).1 ≠ Except.error ()) →
    ((matchAny facts operators debug cs).1 = Except.ok true ↔
      ∃ c ∈ cs, (matchCondition facts operators debug c).1 = Except.ok true) := by
  intro cs
  induction cs with
  | nil => intro _; simp [matchAny]
  | cons c rest ih =>
    intro hne
    rcases h : matchCondition facts operators debug c with ⟨res, l⟩
    rcases res with e | b
    · cases e
      exact absurd (by rw [h]) (hne c (List.mem_cons_self c rest))
    · cases b
      · have := ih (fun c' h' => hne c' (List.mem_cons_of_mem _ h'))
        simp [matchAny, h, this]
      · simp [matchAny, h]

/-- Claim C6: an `all` group matches iff every child matches; an `any`
group (whose children all evaluate without throwing) matches iff at least
one child matches; evaluation is short-circuiting — an `all` group whose
first child fails is `false` and an `any` group whose first child matches
is `true` no matter what follows (in particular the remaining children are
never evaluated, so a later throwing child is unreachable). -/
theorem c6_group_combinators (facts : Value) (operators : List (String × OperatorFunction))
    (debug : Bool) (cs : List RuleCondition) :
    ((matchCondition facts operators debug (.group "all" cs)).1 = Except.ok true ↔
        ∀ c ∈ cs, (matchCondition facts operators debug c).1 = Except.ok true)
    ∧ ((∀ c ∈ cs, (matchCondition facts operators debug c).1 ≠ Except.error ()) →
        ((matchCondition facts operators debug (.group "any" cs)).1 = Except.ok true ↔
          ∃ c ∈ cs, (matchCondition facts operators debug c).1 = Except.ok true))
    ∧ (∀ (c : RuleCondition) (rest : List RuleCondition),
        (matchCondition facts operators debug c).1 = Except.ok false →
        (matchCondition facts operators debug (.group "all" (c :: rest))).1 = Except.ok false)
    ∧ (∀ (c : RuleCondition) (rest : List RuleCondition),
        (matchCondition facts operators debug c).1 = Except.ok true →
        (matchCondition facts operators debug (.group "any" (c :: rest))).1 = Except.ok true) := by
  refine ⟨?_, ?_, ?_, ?_⟩
  · simpa [matchCondition] using matchAll_ok_true_iff facts operators debug cs
  · intro hne
    simpa [matchCondition] using matchAny_ok_true_iff facts operators debug cs hne
  · intro c rest hc
    rcases h : matchCondition facts operators debug c with ⟨res, l⟩
    rw [h] at hc
    simp only at hc
    subst hc
    simp [matchCondition, matchAll, h]
  · intro c rest hc
    rcases h : matchCondition facts operators debug c with ⟨res, l⟩
    rw [h] at hc
    simp only at hc
    subst hc
    simp [matchCondition, matchAny, h]

/-- Claim C6, witness: on the facts `{user: {age: 25, country: "USA"}}`
the `any` group over `age greaterThan 30` / `country equals "USA"` matches
via its second child, and on the facts `{a: null}` an `all` group whose
first child is false is false even though its second child would throw
(its path traverses the `null`): the short-circuit keeps the throwing
child unreached. -/
theorem c6_group_combinators_witness :
    (matchCondition (.obj [("user", .obj [("age", .num 25), ("country", .str "USA")])])
        defaultOperatorFunctions false
        (.group "any" [.cond "user.age" "greaterThan" (.num 30),
                       .cond "user.country" "equals" (.str "USA")])).1 = Except.ok true
    ∧ (matchCondition (.obj [("a", .null)]) defaultOperatorFunctions false
        (.group "all" [.cond "b" "greaterThan" (.num 30),
                       .cond "a.x" "equals" (.str "x")])).1 = Except.ok false := by
  constructor
  · refine ((c6_group_combinators _ defaultOperatorFunctions false _).2.1 ?_).mpr
      ⟨.cond "user.country" "equals" (.str "USA"), by simp, rfl⟩
    intro c hmem
    simp only [List.mem_cons, List.not_mem_nil, or_false] at hmem
    rcases hmem with rfl | rfl
    · intro hcontra
      exact Except.noConfusion hcontra
    · intro hcontra
      exact Except.noConfusion hcontra
  · exact (c6_group_combinators _ defaultOperatorFunctions false []).2.2.1
      (.cond "b" "greaterThan" (.num 30))
      [.cond "a.x" "equals" (.str "x")] rfl

/-- Claim C7: a condition naming an operator absent from the resolved
registry evaluates to `false` (provided its fact-path resolves without
throwing — the source resolves the path before the registry check), a
group with a combinator other than `all`/`any` evaluates to `false`
unconditionally, and a rule whose conditions come out `false` does not
abort the scan: `evaluate` on that rule followed by the rest equals
`evaluate` on the rest. -/
theorem c7_unknown_operator_and_combinator (facts : Value)
    (operators : List (String × OperatorFunction)) (debug : Bool) :
    (∀ (field opName : String) (value factValue : Value),
        getNestedValue facts field = Except.ok factValue →
        operators.lookup opName = none →
        (matchCondition facts operators debug (.cond field opName value)).1 = Except.ok false)
    ∧ (∀ (op : String) (cs : List RuleCondition), op ≠ "all" → op ≠ "any" →
        (matchCondition facts operators debug (.group op cs)).1 = Except.ok false)
    ∧ (∀ (r : Rule) (rest : List Rule) (options : Option EngineOptions),
        (conditionsMatch r.conditions facts (getOperators options)
            ((options.bind (fun o => o.debug)).getD false)).1 = Except.ok false →
        (evaluate (r :: rest) facts options).1 = (evaluate rest facts options).1) := by
  refine ⟨?_, ?_, ?_⟩
  · intro field opName value factValue h hl
    simp [matchCondition, h, hl]
  · intro op cs h1 h2
    simp [matchCondition, h1, h2]
  · intro r rest options h
    rcases hp : conditionsMatch r.conditions facts (getOperators options)
        ((options.bind (fun o => o.debug)).getD false) with ⟨res, l⟩
    rw [hp] at h
    simp only at h
    subst h
    show (evalRules facts (getOperators options)
        ((options.bind (fun o => o.debug)).getD false) (r :: rest)).1 = _
    simp [evalRules, hp]
    rfl

/-- Claim C7, witness: on empty facts, the unknown operator name `bogus`
yields a false condition, the unknown combinator `xor` yields a false
group, and a first rule carrying the unknown-operator condition leaves the
scan of the remaining rules unchanged. -/
theorem c7_unknown_operator_and_combinator_witness :
    (matchCondition (.obj []) (getOperators none) false
        (.cond "a" "bogus" (.num 1))).1 = Except.ok false
    ∧ (matchCondition (.obj []) (getOperators none) false (.group "xor" [])).1 = Except.ok false
    ∧ (evaluate [⟨Sum.inl (.cond "a" "bogus" (.num 1)), "r1"⟩, ⟨Sum.inr [], "r2"⟩]
          (.obj []) none).1
        = (evaluate [⟨Sum.inr [], "r2"⟩] (.obj []) none).1 :=
  ⟨(c7_unknown_operator_and_combinator (.obj []) (getOperators none) false).1
      "a" "bogus" (.num 1) .undefined rfl rfl,
   (c7_unknown_operator_and_combinator (.obj []) (getOperators none) false).2.1
      "xor" [] (by decide) (by decide),
   (c7_unknown_operator_and_combinator (.obj []) (getOperators none) false).2.2
      ⟨Sum.inl (.cond "a" "bogus" (.num 1)), "r1"⟩ [⟨Sum.inr [], "r2"⟩] none rfl⟩

theorem debug_indep_matchFns (facts : Value) (operators : List (String × OperatorFunction))
    (d1 d2 : Bool) :
    (∀ c, (matchCondition facts operators d1 c).1 = (matchCondition facts operators d2 c).1)
    ∧ (∀ cs, (matchAny facts operators d1 cs).1 = (matchAny facts operators d2 cs).1)
    ∧ (∀ cs, (matchAll facts operators d1 cs).1 = (matchAll facts operators d2 cs).1) := by
  refine matchCondition.mutual_induct facts operators d1
    (fun c => (matchCondition facts operators d1 c).1 = (matchCondition facts operators d2 c).1)
    (fun cs => (matchAny facts operators d1 cs).1 = (matchAny facts operators d2 cs).1)
    (fun cs => (matchAll facts operators d1 cs).1 = (matchAll facts operators d2 cs).1)
    ?_ ?_ ?_ ?_ ?_ ?_ ?_ ?_ ?_ ?_ ?_ ?_ ?_ ?_ ?_
  · intro cs ih
    simpa [matchCondition] using ih
  · intro cs _ ih
    simpa [matchCondition] using ih
  · intro op cs h1 h2
    simp [matchCondition, h1, h2]
  · intro field opName value e h
    cases e
    simp [matchCondition, h]
  · intro field opName value next h hl
    simp [matchCondition, h, hl]
  · intro field opName value next h fn hl e hfn
    cases e
    simp [matchCondition, h, hl, hfn]
  · intro field opName value next h fn hl result hfn
    simp [matchCondition, h, hl, hfn]
  · rfl
  · intro c rest l h ihc ihrest
    rcases h2 : matchCondition facts operators d2 c with ⟨res2, l2⟩
    have hres : res2 = Except.ok false := by
      rw [h, h2] at ihc
      exact ihc.symm
    subst hres
    simpa [matchAny, h, h2] using ihrest
  · intro c rest l h ihc
    rcases h2 : matchCondition facts operators d2 c with ⟨res2, l2⟩
    have hres : res2 = Except.ok true := by
      rw [h, h2] at ihc
      exact ihc.symm
    subst hres
    simp [matchAny, h, h2]
  · intro c rest e l h ihc
    cases e
    rcases h2 : matchCondition facts operators d2 c with ⟨res2, l2⟩
    have hres : res2 = Except.error () := by
      rw [h, h2] at ihc
      exact ihc.symm
    subst hres
    simp [matchAny, h, h2]
  · rfl
  · intro c rest l h ihc ihrest
    rcases h2 : matchCondition facts operators d2 c with ⟨res2, l2⟩
    have hres : res2 = Except.ok true := by
      rw [h, h2] at ihc
      exact ihc.symm
    subst hres
    simpa [matchAll, h, h2] using ihrest
  · intro c rest l h ihc
    rcases h2 : matchCondition facts operators d2 c with ⟨res2, l2⟩
    have hres : res2 = Except.ok false := by
      rw [h, h2] at ihc
      exact ihc.symm
    subst hres
    simp [matchAll, h, h2]
  · intro c rest e l h ihc
    cases e
    rcases h2 : matchCondition facts operators d2 c with ⟨res2, l2⟩
    have hres : res2 = Except.error () := by
      rw [h, h2] at ihc
      exact ihc.symm
    subst hres
    simp [matchAll, h, h2]

theorem conditionsMatch_fst_debug_indep (conds : Sum RuleCondition (List RuleCondition))
    (facts : Value) (operators : List (String × OperatorFunction)) (d1 d2 : Bool) :
    (conditionsMatch conds facts operators d1).1 = (conditionsMatch conds facts operators d2).1 := by
  cases conds with
  | inl c => exact (debug_indep_matchFns facts operators d1 d2).1 c
  | inr cs => exact (debug_indep_matchFns facts operators d1 d2).2.2 cs

theorem evalRules_fst_debug_indep (facts : Value) (operators : List (String × OperatorFunction))
    (d1 d2 : Bool) : ∀ rules : List Rule,
    (evalRules facts operators d1 rules).1 = (evalRules facts operators d2 rules).1 := by
  intro rules
  induction rules with
  | nil => rfl
  | cons r rest ih =>
    rcases h1 : conditionsMatch r.conditions facts operators d1 with ⟨res1, l1⟩
    rcases h2 : conditionsMatch r.conditions facts operators d2 with ⟨res2, l2⟩
    have hres : res1 = res2 := by
      have := conditionsMatch_fst_debug_indep r.conditions facts operators d1 d2
      rw [h1, h2] at this
      exact this
    subst hres
    rcases res1 with e | b
    · simp [evalRules, h1, h2]
    · cases b
      · simpa [evalRules, h1, h2] using ih
      · simp [evalRules, h1, h2]

/-- Claim C10: the result of `evaluate` is independent of the `debug`
option — two runs that differ only in `options.debug` (including one
omitting it) return the same value; `debug` only adds diagnostic
emission. -/
theorem c10_result_debug_independent (rules : List Rule) (facts : Value)
    (d1 d2 : Option Bool) (custom : Option (List (String × OperatorFunction))) :
    (evaluate rules facts (some ⟨d1, custom⟩)).1 = (evaluate rules facts (some ⟨d2, custom⟩)).1 :=
  evalRules_fst_debug_indep facts (getOperators (some ⟨d1, custom⟩))
    (d1.getD false) (d2.getD false) rules
